import Mathlib

/-! Shallow embedding of the csub lexical front end (src/source_map.rs,
src/errors.rs, src/scanner.rs) together with theorems about it.

Conventions of the embedding:
* Rust `usize` byte offsets become `Nat`.
* The source text walked by the scanner becomes the list of remaining
  characters paired with the running byte offset, exactly the state of the
  Rust `CharBumper` (a `Peekable<Chars>` plus `current_peek_pos`).
* Rust `todo!(..)` panics are modelled explicitly by the `PanicOr` result
  type: `PanicOr.panicked msg` is a process abort carrying the `todo!`
  message, `PanicOr.value v` is a normal return.
* The Rust scanner struct `CSubScanner` holds a single field, its
  `CharBumper`; its methods are therefore modelled as functions on
  `CharBumper` directly.
* `SourceFile` iterates over the bytes of its text, so its model stores
  the text as a list of bytes (`List Nat`, newline = 10).
-/

namespace CSub

/-- Number of bytes of the UTF-8 encoding of a character, with the same
case split as Rust `char::len_utf8`. -/
def utf8Len (c : Char) : Nat :=
  if c.val < 0x80 then 1
  else if c.val < 0x800 then 2
  else if c.val < 0x10000 then 3
  else 4

/-- Total UTF-8 byte length of a list of characters. -/
def utf8LenList (l : List Char) : Nat :=
  l.foldr (fun c acc => utf8Len c + acc) 0

/-- A half-open byte range of source text (Rust `Span`). -/
structure Span where
  start : Nat
  «end» : Nat
  deriving DecidableEq

/-- The dummy span (start = end = 0) used for synthetic words such as
end-of-input (Rust `Span::DUMMY`). -/
def Span.DUMMY : Span := { start := 0, «end» := 0 }

/-- Line/column source location (Rust `Loc`): `line` is 1-based, `col` is
a byte offset relative to the line start. -/
structure Loc where
  line : Nat
  col : Nat
  deriving DecidableEq

/-- Diagnostics (Rust `Diag` in errors.rs).  The only variant the code
declares is `UnknownCharacter`. -/
inductive Diag where
  | UnknownCharacter (pos : Nat)
  deriving DecidableEq

/-- An ordered collection of diagnostics (Rust `DiagBag`). -/
structure DiagBag where
  diags : List Diag
  deriving DecidableEq

/-- Append one diagnostic at the end (Rust `DiagBag::push`). -/
def DiagBag.push (bag : DiagBag) (d : Diag) : DiagBag :=
  { diags := bag.diags ++ [d] }

/-- Concatenate two bags, left entries first (Rust `DiagBag::extend`). -/
def DiagBag.extend (bag other : DiagBag) : DiagBag :=
  { diags := bag.diags ++ other.diags }

/-- Keywords of the C subset (Rust `Keyword`). -/
inductive Keyword where
  | Else | If | Int | Return | Void | While
  deriving DecidableEq

/-- Token categories (Rust `Category`), in source order. -/
inductive Category where
  | Kw (k : Keyword)
  | Plus | Minus | Star | Slash
  | Less | LessEqual | Greater | GreaterEqual
  | EqualEqual | ExclamaEqual | Equal
  | Semicolon | Comma
  | OpenParen | CloseParen
  | OpenCurly | CloseCurly
  | OpenBracket | CloseBracket
  | Ident | Number | Eof
  deriving DecidableEq

/-- A classified lexical unit (Rust `Word`): a category plus the span of
its lexeme. -/
structure Word where
  category : Category
  lexeme : Span
  deriving DecidableEq

/-- The synthetic end-of-input word (Rust `Word::end_of_input`). -/
def Word.end_of_input : Word :=
  { category := .Eof, lexeme := Span.DUMMY }

/-- The character cursor (Rust `CharBumper`): the remaining character
stream plus the current byte offset. -/
structure CharBumper where
  char_stream : List Char
  current_peek_pos : Nat
  deriving DecidableEq

/-- Look at the next character without consuming it (Rust
`CharBumper::peek`). -/
def CharBumper.peek (b : CharBumper) : Option Char :=
  b.char_stream.head?

/-- Whether the next character equals `expected_char` (Rust
`CharBumper::peek_is`). -/
def CharBumper.peek_is (b : CharBumper) (expected_char : Char) : Bool :=
  decide (b.peek = some expected_char)

/-- Consume the next character, advancing the byte offset by its UTF-8
length (Rust `CharBumper::bump`).  Returns the consumed character (if
any) and the cursor afterwards. -/
def CharBumper.bump (b : CharBumper) : Option Char × CharBumper :=
  match b.char_stream with
  | [] => (none, b)
  | c :: cs => (some c, ⟨cs, b.current_peek_pos + utf8Len c⟩)

/-- Consume the next character only when it equals `expected_char` (Rust
`CharBumper::bump_if`).  Returns whether it consumed, and the cursor
afterwards. -/
def CharBumper.bump_if (b : CharBumper) (expected_char : Char) : Bool × CharBumper :=
  if b.peek_is expected_char then (true, b.bump.2) else (false, b)

/-- Result of one classification step (Rust `ScanState`). -/
inductive ScanState where
  | Skipped
  | FoundCategory (c : Category)
  | ReachedEndOfInput
  deriving DecidableEq

/-- Rust `Result<T, E>`, with the constructor names of the source. -/
inductive RustResult (τ ε : Type) where
  | Ok (val : τ)
  | Err (err : ε)
  deriving DecidableEq

/-- Rust `type ScanResult = Result<ScanState, Diag>`. -/
abbrev ScanResult := RustResult ScanState Diag

/-- A Rust computation that either panics (aborts the process with a
message, as `todo!` does) or returns a value. -/
inductive PanicOr (α : Type) where
  | panicked (msg : String)
  | value (val : α)
  deriving DecidableEq

/-- The loop body of `CSubScanner::skip_block_comment`, recursing over the
remaining characters: bump one character; a `'*'` whose successor is `'/'`
bumps the `'/'` as well and stops; end of input is the
`todo!("diagnose missing end of block-comment!")` panic. -/
def skip_block_comment_aux : List Char → Nat → PanicOr CharBumper
  | [], _ => .panicked "diagnose missing end of block-comment!"
  | c :: cs, p =>
    if c = '*' ∧ cs.head? = some '/' then
      .value ⟨cs.tail, p + utf8Len c + utf8Len '/'⟩
    else
      skip_block_comment_aux cs (p + utf8Len c)

/-- Rust `CSubScanner::skip_block_comment`. -/
def skip_block_comment (b : CharBumper) : PanicOr CharBumper :=
  skip_block_comment_aux b.char_stream b.current_peek_pos

/-- The character class consumed by the body of `bump_ident`: the Rust
pattern `'a'..='z' | 'A'..='Z' | '0'..='9'`. -/
def is_ident_char (c : Char) : Bool :=
  decide (('a' ≤ c ∧ c ≤ 'z') ∨ ('A' ≤ c ∧ c ≤ 'Z') ∨ ('0' ≤ c ∧ c ≤ '9'))

/-- The character class that starts an identifier: the Rust pattern
`'a'..='z' | 'A'..='Z'`. -/
def is_ascii_letter (c : Char) : Bool :=
  decide (('a' ≤ c ∧ c ≤ 'z') ∨ ('A' ≤ c ∧ c ≤ 'Z'))

/-- The Rust pattern `'0'..='9'`. -/
def is_ascii_digit (c : Char) : Bool :=
  decide ('0' ≤ c ∧ c ≤ '9')

/-- The whitespace characters the scanner skips: the Rust pattern
`'\x20' | '\n' | '\t'`. -/
def is_whitespace (c : Char) : Bool :=
  decide (c = ' ' ∨ c = '\n' ∨ c = '\t')

/-- The loop of `CSubScanner::bump_ident`: bump while the next character
is a letter or digit. -/
def bump_ident_aux : List Char → Nat → CharBumper
  | [], p => ⟨[], p⟩
  | c :: cs, p =>
    if is_ident_char c then bump_ident_aux cs (p + utf8Len c)
    else ⟨c :: cs, p⟩

/-- Rust `CSubScanner::bump_ident`. -/
def bump_ident (b : CharBumper) : CharBumper :=
  bump_ident_aux b.char_stream b.current_peek_pos

/-- Rust `CSubScanner::analyse_category_and_bump_chars`: bump one
character and classify it, with the source's match arms in source order.
Arms guarded by `self.bump_if(..)` become a `match` on the modelled
`bump_if`; the unmatched characters fall into the Rust `_` arm, the
`todo!("Not tested")` panic. -/
def analyse_category_and_bump_chars (b : CharBumper) : PanicOr (ScanResult × CharBumper) :=
  match b.char_stream with
  | [] => .value (.Ok .ReachedEndOfInput, b)
  | c :: cs =>
    let b1 : CharBumper := ⟨cs, b.current_peek_pos + utf8Len c⟩
    if c = '+' then .value (.Ok (.FoundCategory .Plus), b1)
    else if c = '-' then .value (.Ok (.FoundCategory .Minus), b1)
    else if c = '*' then .value (.Ok (.FoundCategory .Star), b1)
    else if c = '/' then
      match b1.bump_if '*' with
      | (true, b2) =>
        match skip_block_comment b2 with
        | .panicked msg => .panicked msg
        | .value b3 => .value (.Ok .Skipped, b3)
      | (false, b2) => .value (.Ok (.FoundCategory .Slash), b2)
    else if c = '<' then
      match b1.bump_if '=' with
      | (true, b2) => .value (.Ok (.FoundCategory .LessEqual), b2)
      | (false, b2) => .value (.Ok (.FoundCategory .Less), b2)
    else if c = '>' then
      match b1.bump_if '=' with
      | (true, b2) => .value (.Ok (.FoundCategory .GreaterEqual), b2)
      | (false, b2) => .value (.Ok (.FoundCategory .Greater), b2)
    else if c = '=' then
      match b1.bump_if '=' with
      | (true, b2) => .value (.Ok (.FoundCategory .EqualEqual), b2)
      | (false, b2) => .value (.Ok (.FoundCategory .Equal), b2)
    else if c = '!' then
      match b1.bump_if '=' with
      | (true, b2) => .value (.Ok (.FoundCategory .ExclamaEqual), b2)
      | (false, _) => .panicked "Not tested"
    else if c = ';' then .value (.Ok (.FoundCategory .Semicolon), b1)
    else if c = ',' then .value (.Ok (.FoundCategory .Comma), b1)
    else if c = '(' then .value (.Ok (.FoundCategory .OpenParen), b1)
    else if c = ')' then .value (.Ok (.FoundCategory .CloseParen), b1)
    else if c = '[' then .value (.Ok (.FoundCategory .OpenCurly), b1)
    else if c = ']' then .value (.Ok (.FoundCategory .CloseCurly), b1)
    else if c = '{' then .value (.Ok (.FoundCategory .OpenBracket), b1)
    else if c = '}' then .value (.Ok (.FoundCategory .CloseBracket), b1)
    else if is_ascii_letter c then .value (.Ok (.FoundCategory .Ident), bump_ident b1)
    else if c = ' ' ∨ c = '\n' ∨ c = '\t' then .value (.Ok .Skipped, b1)
    else .panicked "Not tested"


/-! Basic lemmas about the cursor primitives and the classification step. -/

theorem utf8Len_pos (c : Char) : 1 ≤ utf8Len c := by
  unfold utf8Len
  split_ifs <;> omega

@[simp] theorem utf8LenList_nil : utf8LenList [] = 0 := rfl

@[simp] theorem utf8LenList_cons (c : Char) (l : List Char) :
    utf8LenList (c :: l) = utf8Len c + utf8LenList l := rfl

theorem bump_if_cons_eq (ch : Char) (t : List Char) (q : Nat) :
    CharBumper.bump_if ⟨ch :: t, q⟩ ch = (true, ⟨t, q + utf8Len ch⟩) := by
  simp [CharBumper.bump_if, CharBumper.peek_is, CharBumper.peek, CharBumper.bump]

theorem bump_if_cons_ne {c2 ch : Char} (t : List Char) (q : Nat) (h : ¬ c2 = ch) :
    CharBumper.bump_if ⟨c2 :: t, q⟩ ch = (false, ⟨c2 :: t, q⟩) := by
  simp [CharBumper.bump_if, CharBumper.peek_is, CharBumper.peek, h]

theorem bump_if_nil (ch : Char) (q : Nat) :
    CharBumper.bump_if ⟨[], q⟩ ch = (false, ⟨[], q⟩) := by
  simp [CharBumper.bump_if, CharBumper.peek_is, CharBumper.peek]

theorem analyse_nil (p : Nat) :
    analyse_category_and_bump_chars ⟨[], p⟩ = .value (.Ok .ReachedEndOfInput, ⟨[], p⟩) := rfl

theorem analyse_slash (cs : List Char) (p : Nat) :
    analyse_category_and_bump_chars ⟨'/' :: cs, p⟩ =
      match CharBumper.bump_if ⟨cs, p + utf8Len '/'⟩ '*' with
      | (true, b2) =>
        match skip_block_comment b2 with
        | .panicked msg => .panicked msg
        | .value b3 => .value (.Ok .Skipped, b3)
      | (false, b2) => .value (.Ok (.FoundCategory .Slash), b2) := rfl

theorem analyse_less (cs : List Char) (p : Nat) :
    analyse_category_and_bump_chars ⟨'<' :: cs, p⟩ =
      match CharBumper.bump_if ⟨cs, p + utf8Len '<'⟩ '=' with
      | (true, b2) => .value (.Ok (.FoundCategory .LessEqual), b2)
      | (false, b2) => .value (.Ok (.FoundCategory .Less), b2) := rfl

theorem analyse_greater (cs : List Char) (p : Nat) :
    analyse_category_and_bump_chars ⟨'>' :: cs, p⟩ =
      match CharBumper.bump_if ⟨cs, p + utf8Len '>'⟩ '=' with
      | (true, b2) => .value (.Ok (.FoundCategory .GreaterEqual), b2)
      | (false, b2) => .value (.Ok (.FoundCategory .Greater), b2) := rfl

theorem analyse_equal (cs : List Char) (p : Nat) :
    analyse_category_and_bump_chars ⟨'=' :: cs, p⟩ =
      match CharBumper.bump_if ⟨cs, p + utf8Len '='⟩ '=' with
      | (true, b2) => .value (.Ok (.FoundCategory .EqualEqual), b2)
      | (false, b2) => .value (.Ok (.FoundCategory .Equal), b2) := rfl

theorem analyse_exclama (cs : List Char) (p : Nat) :
    analyse_category_and_bump_chars ⟨'!' :: cs, p⟩ =
      match CharBumper.bump_if ⟨cs, p + utf8Len '!'⟩ '=' with
      | (true, b2) => .value (.Ok (.FoundCategory .ExclamaEqual), b2)
      | (false, _) => .panicked "Not tested" := rfl

theorem skip_block_comment_aux_consumed :
    ∀ (l : List Char) (p : Nat) (b3 : CharBumper),
      skip_block_comment_aux l p = .value b3 →
      ∃ pre, l = pre ++ b3.char_stream ∧
        b3.current_peek_pos = p + utf8LenList pre ∧ 1 ≤ pre.length := by
  intro l
  induction l with
  | nil => intro p b3 hb; simp [skip_block_comment_aux] at hb
  | cons c cs ih =>
    intro p b3 hb
    simp only [skip_block_comment_aux] at hb
    split_ifs at hb with hcond
    · obtain ⟨hc, hh⟩ := hcond
      subst hc
      simp only [PanicOr.value.injEq] at hb
      subst hb
      rcases cs with _ | ⟨c2, t⟩
      · simp at hh
      · simp only [List.head?_cons, Option.some.injEq] at hh
        subst hh
        refine ⟨'*' :: '/' :: [], by rfl, ?_, by decide⟩
        show p + utf8Len '*' + utf8Len '/' = p + utf8LenList ('*' :: '/' :: [])
        simp only [utf8LenList_cons, utf8LenList_nil]
        omega
    · obtain ⟨pre, hpre, hpos, hlen⟩ := ih _ _ hb
      refine ⟨c :: pre, by simp [hpre], ?_, ?_⟩
      · rw [hpos, utf8LenList_cons]
        omega
      · simp only [List.length_cons]
        omega

/-- The sixteen characters the scanner's match treats by name before the
letter, whitespace and catch-all arms. -/
def is_scanner_punct (c : Char) : Bool :=
  decide (c = '+' ∨ c = '-' ∨ c = '*' ∨ c = '/' ∨ c = '<' ∨ c = '>' ∨ c = '=' ∨ c = '!' ∨
    c = ';' ∨ c = ',' ∨ c = '(' ∨ c = ')' ∨ c = '[' ∨ c = ']' ∨ c = '{' ∨ c = '}')

/-- Complete case analysis of one classification step on a non-empty
stream, following the source's match arms in order. -/
theorem analyse_cases (c : Char) (cs : List Char) (p : Nat) :
    (c = '+' ∧ analyse_category_and_bump_chars ⟨c :: cs, p⟩ =
      .value (.Ok (.FoundCategory .Plus), ⟨cs, p + utf8Len '+'⟩)) ∨
    (c = '-' ∧ analyse_category_and_bump_chars ⟨c :: cs, p⟩ =
      .value (.Ok (.FoundCategory .Minus), ⟨cs, p + utf8Len '-'⟩)) ∨
    (c = '*' ∧ analyse_category_and_bump_chars ⟨c :: cs, p⟩ =
      .value (.Ok (.FoundCategory .Star), ⟨cs, p + utf8Len '*'⟩)) ∨
    (∃ t b3, c = '/' ∧ cs = '*' :: t ∧
      skip_block_comment_aux t (p + utf8Len '/' + utf8Len '*') = .value b3 ∧
      analyse_category_and_bump_chars ⟨c :: cs, p⟩ = .value (.Ok .Skipped, b3)) ∨
    (∃ t msg, c = '/' ∧ cs = '*' :: t ∧
      skip_block_comment_aux t (p + utf8Len '/' + utf8Len '*') = .panicked msg ∧
      analyse_category_and_bump_chars ⟨c :: cs, p⟩ = .panicked msg) ∨
    (c = '/' ∧ cs.head? ≠ some '*' ∧ analyse_category_and_bump_chars ⟨c :: cs, p⟩ =
      .value (.Ok (.FoundCategory .Slash), ⟨cs, p + utf8Len '/'⟩)) ∨
    (∃ t, c = '<' ∧ cs = '=' :: t ∧ analyse_category_and_bump_chars ⟨c :: cs, p⟩ =
      .value (.Ok (.FoundCategory .LessEqual), ⟨t, p + utf8Len '<' + utf8Len '='⟩)) ∨
    (c = '<' ∧ cs.head? ≠ some '=' ∧ analyse_category_and_bump_chars ⟨c :: cs, p⟩ =
      .value (.Ok (.FoundCategory .Less), ⟨cs, p + utf8Len '<'⟩)) ∨
    (∃ t, c = '>' ∧ cs = '=' :: t ∧ analyse_category_and_bump_chars ⟨c :: cs, p⟩ =
      .value (.Ok (.FoundCategory .GreaterEqual), ⟨t, p + utf8Len '>' + utf8Len '='⟩)) ∨
    (c = '>' ∧ cs.head? ≠ some '=' ∧ analyse_category_and_bump_chars ⟨c :: cs, p⟩ =
      .value (.Ok (.FoundCategory .Greater), ⟨cs, p + utf8Len '>'⟩)) ∨
    (∃ t, c = '=' ∧ cs = '=' :: t ∧ analyse_category_and_bump_chars ⟨c :: cs, p⟩ =
      .value (.Ok (.FoundCategory .EqualEqual), ⟨t, p + utf8Len '=' + utf8Len '='⟩)) ∨
    (c = '=' ∧ cs.head? ≠ some '=' ∧ analyse_category_and_bump_chars ⟨c :: cs, p⟩ =
      .value (.Ok (.FoundCategory .Equal), ⟨cs, p + utf8Len '='⟩)) ∨
    (∃ t, c = '!' ∧ cs = '=' :: t ∧ analyse_category_and_bump_chars ⟨c :: cs, p⟩ =
      .value (.Ok (.FoundCategory .ExclamaEqual), ⟨t, p + utf8Len '!' + utf8Len '='⟩)) ∨
    (c = '!' ∧ cs.head? ≠ some '=' ∧ analyse_category_and_bump_chars ⟨c :: cs, p⟩ =
      .panicked "Not tested") ∨
    (c = ';' ∧ analyse_category_and_bump_chars ⟨c :: cs, p⟩ =
      .value (.Ok (.FoundCategory .Semicolon), ⟨cs, p + utf8Len ';'⟩)) ∨
    (c = ',' ∧ analyse_category_and_bump_chars ⟨c :: cs, p⟩ =
      .value (.Ok (.FoundCategory .Comma), ⟨cs, p + utf8Len ','⟩)) ∨
    (c = '(' ∧ analyse_category_and_bump_chars ⟨c :: cs, p⟩ =
      .value (.Ok (.FoundCategory .OpenParen), ⟨cs, p + utf8Len '('⟩)) ∨
    (c = ')' ∧ analyse_category_and_bump_chars ⟨c :: cs, p⟩ =
      .value (.Ok (.FoundCategory .CloseParen), ⟨cs, p + utf8Len ')'⟩)) ∨
    (c = '[' ∧ analyse_category_and_bump_chars ⟨c :: cs, p⟩ =
      .value (.Ok (.FoundCategory .OpenCurly), ⟨cs, p + utf8Len '['⟩)) ∨
    (c = ']' ∧ analyse_category_and_bump_chars ⟨c :: cs, p⟩ =
      .value (.Ok (.FoundCategory .CloseCurly), ⟨cs, p + utf8Len ']'⟩)) ∨
    (c = '{' ∧ analyse_category_and_bump_chars ⟨c :: cs, p⟩ =
      .value (.Ok (.FoundCategory .OpenBracket), ⟨cs, p + utf8Len '{'⟩)) ∨
    (c = '}' ∧ analyse_category_and_bump_chars ⟨c :: cs, p⟩ =
      .value (.Ok (.FoundCategory .CloseBracket), ⟨cs, p + utf8Len '}'⟩)) ∨
    (is_ascii_letter c = true ∧ analyse_category_and_bump_chars ⟨c :: cs, p⟩ =
      .value (.Ok (.FoundCategory .Ident), bump_ident_aux cs (p + utf8Len c))) ∨
    (is_whitespace c = true ∧ analyse_category_and_bump_chars ⟨c :: cs, p⟩ =
      .value (.Ok .Skipped, ⟨cs, p + utf8Len c⟩)) ∨
    (is_ascii_letter c = false ∧ is_whitespace c = false ∧ is_scanner_punct c = false ∧
      analyse_category_and_bump_chars ⟨c :: cs, p⟩ = .panicked "Not tested") := by
  rcases eq_or_ne c '+' with rfl | h1
  · exact Or.inl ⟨rfl, rfl⟩
  refine Or.inr ?_
  rcases eq_or_ne c '-' with rfl | h2
  · exact Or.inl ⟨rfl, rfl⟩
  refine Or.inr ?_
  rcases eq_or_ne c '*' with rfl | h3
  · exact Or.inl ⟨rfl, rfl⟩
  refine Or.inr ?_
  rcases eq_or_ne c '/' with rfl | h4
  · rcases cs with _ | ⟨c2, t⟩
    · exact Or.inr (Or.inr (Or.inl ⟨rfl, by simp, rfl⟩))
    · rcases eq_or_ne c2 '*' with rfl | hc2
      · rcases hsk : skip_block_comment_aux t (p + utf8Len '/' + utf8Len '*') with msg | b3
        · refine Or.inr (Or.inl ⟨t, msg, rfl, rfl, hsk, ?_⟩)
          have hsk2 : skip_block_comment ⟨t, p + utf8Len '/' + utf8Len '*'⟩ = .panicked msg := hsk
          rw [analyse_slash, bump_if_cons_eq '*' t (p + utf8Len '/')]
          simp only [hsk2]
        · refine Or.inl ⟨t, b3, rfl, rfl, hsk, ?_⟩
          have hsk2 : skip_block_comment ⟨t, p + utf8Len '/' + utf8Len '*'⟩ = .value b3 := hsk
          rw [analyse_slash, bump_if_cons_eq '*' t (p + utf8Len '/')]
          simp only [hsk2]
      · refine Or.inr (Or.inr (Or.inl ⟨rfl, by simp [hc2], ?_⟩))
        rw [analyse_slash, bump_if_cons_ne t (p + utf8Len '/') hc2]
  refine Or.inr (Or.inr (Or.inr ?_))
  rcases eq_or_ne c '<' with rfl | h5
  · rcases cs with _ | ⟨c2, t⟩
    · exact Or.inr (Or.inl ⟨rfl, by simp, rfl⟩)
    · rcases eq_or_ne c2 '=' with rfl | hc2
      · exact Or.inl ⟨t, rfl, rfl, rfl⟩
      · refine Or.inr (Or.inl ⟨rfl, by simp [hc2], ?_⟩)
        rw [analyse_less, bump_if_cons_ne t (p + utf8Len '<') hc2]
  refine Or.inr (Or.inr ?_)
  rcases eq_or_ne c '>' with rfl | h6
  · rcases cs with _ | ⟨c2, t⟩
    · exact Or.inr (Or.inl ⟨rfl, by simp, rfl⟩)
    · rcases eq_or_ne c2 '=' with rfl | hc2
      · exact Or.inl ⟨t, rfl, rfl, rfl⟩
      · refine Or.inr (Or.inl ⟨rfl, by simp [hc2], ?_⟩)
        rw [analyse_greater, bump_if_cons_ne t (p + utf8Len '>') hc2]
  refine Or.inr (Or.inr ?_)
  rcases eq_or_ne c '=' with rfl | h7
  · rcases cs with _ | ⟨c2, t⟩
    · exact Or.inr (Or.inl ⟨rfl, by simp, rfl⟩)
    · rcases eq_or_ne c2 '=' with rfl | hc2
      · exact Or.inl ⟨t, rfl, rfl, rfl⟩
      · refine Or.inr (Or.inl ⟨rfl, by simp [hc2], ?_⟩)
        rw [analyse_equal, bump_if_cons_ne t (p + utf8Len '=') hc2]
  refine Or.inr (Or.inr ?_)
  rcases eq_or_ne c '!' with rfl | h8
  · rcases cs with _ | ⟨c2, t⟩
    · exact Or.inr (Or.inl ⟨rfl, by simp, rfl⟩)
    · rcases eq_or_ne c2 '=' with rfl | hc2
      · exact Or.inl ⟨t, rfl, rfl, rfl⟩
      · refine Or.inr (Or.inl ⟨rfl, by simp [hc2], ?_⟩)
        rw [analyse_exclama, bump_if_cons_ne t (p + utf8Len '!') hc2]
  refine Or.inr (Or.inr ?_)
  rcases eq_or_ne c ';' with rfl | h9
  · exact Or.inl ⟨rfl, rfl⟩
  refine Or.inr ?_
  rcases eq_or_ne c ',' with rfl | h10
  · exact Or.inl ⟨rfl, rfl⟩
  refine Or.inr ?_
  rcases eq_or_ne c '(' with rfl | h11
  · exact Or.inl ⟨rfl, rfl⟩
  refine Or.inr ?_
  rcases eq_or_ne c ')' with rfl | h12
  · exact Or.inl ⟨rfl, rfl⟩
  refine Or.inr ?_
  rcases eq_or_ne c '[' with rfl | h13
  · exact Or.inl ⟨rfl, rfl⟩
  refine Or.inr ?_
  rcases eq_or_ne c ']' with rfl | h14
  · exact Or.inl ⟨rfl, rfl⟩
  refine Or.inr ?_
  rcases eq_or_ne c '{' with rfl | h15
  · exact Or.inl ⟨rfl, rfl⟩
  refine Or.inr ?_
  rcases eq_or_ne c '}' with rfl | h16
  · exact Or.inl ⟨rfl, rfl⟩
  refine Or.inr ?_
  cases hL : is_ascii_letter c with
  | true =>
    refine Or.inl ⟨rfl, ?_⟩
    simp only [analyse_category_and_bump_chars]
    rw [if_neg h1, if_neg h2, if_neg h3, if_neg h4, if_neg h5, if_neg h6, if_neg h7, if_neg h8,
      if_neg h9, if_neg h10, if_neg h11, if_neg h12, if_neg h13, if_neg h14, if_neg h15,
      if_neg h16, if_pos hL]
    rfl
  | false =>
    refine Or.inr ?_
    by_cases hws : c = ' ' ∨ c = '\n' ∨ c = '\t'
    · refine Or.inl ⟨by simp [is_whitespace, hws], ?_⟩
      simp only [analyse_category_and_bump_chars]
      rw [if_neg h1, if_neg h2, if_neg h3, if_neg h4, if_neg h5, if_neg h6, if_neg h7, if_neg h8,
        if_neg h9, if_neg h10, if_neg h11, if_neg h12, if_neg h13, if_neg h14, if_neg h15,
        if_neg h16, if_neg (by simp [hL] : ¬ is_ascii_letter c = true), if_pos hws]
    · refine Or.inr ⟨rfl, by simp [is_whitespace, hws], ?_, ?_⟩
      · simp [is_scanner_punct, h1, h2, h3, h4, h5, h6, h7, h8, h9, h10, h11, h12, h13, h14,
          h15, h16]
      · simp only [analyse_category_and_bump_chars]
        rw [if_neg h1, if_neg h2, if_neg h3, if_neg h4, if_neg h5, if_neg h6, if_neg h7,
          if_neg h8, if_neg h9, if_neg h10, if_neg h11, if_neg h12, if_neg h13, if_neg h14,
          if_neg h15, if_neg h16, if_neg (by simp [hL] : ¬ is_ascii_letter c = true),
          if_neg hws]

theorem ws_not_letter {c : Char} (hw : is_whitespace c = true) : is_ascii_letter c = false := by
  simp only [is_whitespace, decide_eq_true_eq] at hw
  rcases hw with rfl | rfl | rfl <;> decide

theorem letter_not_ws {c : Char} (hL : is_ascii_letter c = true) : is_whitespace c = false := by
  cases hw : is_whitespace c
  · rfl
  · exact absurd hL (by simp [ws_not_letter hw])

theorem digit_not_letter {c : Char} (hd : is_ascii_digit c = true) : is_ascii_letter c = false := by
  simp only [is_ascii_digit, decide_eq_true_eq] at hd
  obtain ⟨hd1, hd2⟩ := hd
  simp only [is_ascii_letter, decide_eq_false_iff_not]
  rintro (⟨ha, _⟩ | ⟨ha, _⟩)
  · exact absurd (le_trans ha hd2) (by decide)
  · exact absurd (le_trans ha hd2) (by decide)

theorem digit_not_ws {c : Char} (hd : is_ascii_digit c = true) : is_whitespace c = false := by
  simp only [is_whitespace, decide_eq_false_iff_not]
  rintro (rfl | rfl | rfl) <;> exact absurd hd (by decide)

/-- A `Skipped` step consumes a non-empty prefix of the stream and
advances the offset by exactly that prefix's UTF-8 length. -/
theorem analyse_skipped_inv (b b' : CharBumper)
    (h : analyse_category_and_bump_chars b = .value (.Ok .Skipped, b')) :
    ∃ pre, b.char_stream = pre ++ b'.char_stream ∧
      b'.current_peek_pos = b.current_peek_pos + utf8LenList pre ∧ 1 ≤ pre.length := by
  obtain ⟨l, p⟩ := b
  rcases l with _ | ⟨c, cs⟩
  · rw [analyse_nil] at h
    simp at h
  · rcases analyse_cases c cs p with
      ⟨hc, hA⟩ | ⟨hc, hA⟩ | ⟨hc, hA⟩ | ⟨t, b3x, hc, hcs, hsk, hA⟩ |
      ⟨t, msg, hc, hcs, hsk, hA⟩ | ⟨hc, hh, hA⟩ | ⟨t, hc, hcs, hA⟩ | ⟨hc, hh, hA⟩ |
      ⟨t, hc, hcs, hA⟩ | ⟨hc, hh, hA⟩ | ⟨t, hc, hcs, hA⟩ | ⟨hc, hh, hA⟩ |
      ⟨t, hc, hcs, hA⟩ | ⟨hc, hh, hA⟩ | ⟨hc, hA⟩ | ⟨hc, hA⟩ | ⟨hc, hA⟩ | ⟨hc, hA⟩ |
      ⟨hc, hA⟩ | ⟨hc, hA⟩ | ⟨hc, hA⟩ | ⟨hc, hA⟩ | ⟨hL2, hA⟩ | ⟨hw, hA⟩ |
      ⟨hL2, hw, hpn, hA⟩ <;>
    rw [hA] at h
    all_goals simp at h
    · subst hc
      subst hcs
      subst h
      obtain ⟨pre3, hp1, hp2, hp3⟩ := skip_block_comment_aux_consumed t _ _ hsk
      refine ⟨'/' :: '*' :: pre3, by simp [hp1], ?_, by simp⟩
      rw [hp2]
      simp only [utf8LenList_cons]
      omega
    · subst h
      refine ⟨[c], by simp, ?_, by simp⟩
      show p + utf8Len c = p + utf8LenList [c]
      simp only [utf8LenList_cons, utf8LenList_nil]
      omega

/-- A `FoundCategory` step starts at a non-whitespace character. -/
theorem analyse_found_not_ws (b b' : CharBumper) (cat : Category)
    (h : analyse_category_and_bump_chars b = .value (.Ok (.FoundCategory cat), b')) :
    ∃ c cs, b.char_stream = c :: cs ∧ is_whitespace c = false := by
  obtain ⟨l, p⟩ := b
  rcases l with _ | ⟨c, cs⟩
  · rw [analyse_nil] at h
    simp at h
  · refine ⟨c, cs, rfl, ?_⟩
    rcases analyse_cases c cs p with
      ⟨hc, hA⟩ | ⟨hc, hA⟩ | ⟨hc, hA⟩ | ⟨t, b3x, hc, hcs, hsk, hA⟩ |
      ⟨t, msg, hc, hcs, hsk, hA⟩ | ⟨hc, hh, hA⟩ | ⟨t, hc, hcs, hA⟩ | ⟨hc, hh, hA⟩ |
      ⟨t, hc, hcs, hA⟩ | ⟨hc, hh, hA⟩ | ⟨t, hc, hcs, hA⟩ | ⟨hc, hh, hA⟩ |
      ⟨t, hc, hcs, hA⟩ | ⟨hc, hh, hA⟩ | ⟨hc, hA⟩ | ⟨hc, hA⟩ | ⟨hc, hA⟩ | ⟨hc, hA⟩ |
      ⟨hc, hA⟩ | ⟨hc, hA⟩ | ⟨hc, hA⟩ | ⟨hc, hA⟩ | ⟨hL2, hA⟩ | ⟨hw, hA⟩ |
      ⟨hL2, hw, hpn, hA⟩ <;>
    rw [hA] at h
    all_goals first
      | (subst hc; decide)
      | exact letter_not_ws hL2
      | exact absurd h (by simp)

/-- The classification step either panics or returns `Ok`: no branch of
the source constructs an `Err`. -/
theorem analyse_shape (b : CharBumper) :
    (∃ msg, analyse_category_and_bump_chars b = .panicked msg) ∨
    (∃ s b2, analyse_category_and_bump_chars b = .value (.Ok s, b2)) := by
  obtain ⟨l, p⟩ := b
  rcases l with _ | ⟨c, cs⟩
  · exact Or.inr ⟨_, _, analyse_nil p⟩
  · rcases analyse_cases c cs p with
      ⟨hc, hA⟩ | ⟨hc, hA⟩ | ⟨hc, hA⟩ | ⟨t, b3x, hc, hcs, hsk, hA⟩ |
      ⟨t, msg, hc, hcs, hsk, hA⟩ | ⟨hc, hh, hA⟩ | ⟨t, hc, hcs, hA⟩ | ⟨hc, hh, hA⟩ |
      ⟨t, hc, hcs, hA⟩ | ⟨hc, hh, hA⟩ | ⟨t, hc, hcs, hA⟩ | ⟨hc, hh, hA⟩ |
      ⟨t, hc, hcs, hA⟩ | ⟨hc, hh, hA⟩ | ⟨hc, hA⟩ | ⟨hc, hA⟩ | ⟨hc, hA⟩ | ⟨hc, hA⟩ |
      ⟨hc, hA⟩ | ⟨hc, hA⟩ | ⟨hc, hA⟩ | ⟨hc, hA⟩ | ⟨hL2, hA⟩ | ⟨hw, hA⟩ |
      ⟨hL2, hw, hpn, hA⟩
    all_goals first
      | exact Or.inl ⟨_, hA⟩
      | exact Or.inr ⟨_, _, hA⟩

/-- On a letter, the classification step consumes the maximal letter-digit
run and reports `Ident`; no keyword lookup takes place. -/
theorem analyse_letter (c : Char) (cs : List Char) (p : Nat)
    (hL : is_ascii_letter c = true) :
    analyse_category_and_bump_chars ⟨c :: cs, p⟩ =
      .value (.Ok (.FoundCategory .Ident), bump_ident_aux cs (p + utf8Len c)) := by
  rcases analyse_cases c cs p with
    ⟨hc, hA⟩ | ⟨hc, hA⟩ | ⟨hc, hA⟩ | ⟨t, b3x, hc, hcs, hsk, hA⟩ |
    ⟨t, msg, hc, hcs, hsk, hA⟩ | ⟨hc, hh, hA⟩ | ⟨t, hc, hcs, hA⟩ | ⟨hc, hh, hA⟩ |
    ⟨t, hc, hcs, hA⟩ | ⟨hc, hh, hA⟩ | ⟨t, hc, hcs, hA⟩ | ⟨hc, hh, hA⟩ |
    ⟨t, hc, hcs, hA⟩ | ⟨hc, hh, hA⟩ | ⟨hc, hA⟩ | ⟨hc, hA⟩ | ⟨hc, hA⟩ | ⟨hc, hA⟩ |
    ⟨hc, hA⟩ | ⟨hc, hA⟩ | ⟨hc, hA⟩ | ⟨hc, hA⟩ | ⟨hL2, hA⟩ | ⟨hw, hA⟩ |
    ⟨hL2, hw, hpn, hA⟩
  all_goals first
    | exact hA
    | (subst hc; exact absurd hL (by decide))
    | exact absurd (hL.symm.trans (ws_not_letter hw)) (by decide)
    | exact absurd (hL.symm.trans hL2) (by decide)

/-- On a digit, the classification step falls into the source's `_` arm,
the `todo!("Not tested")` panic: no number scanning is implemented. -/
theorem analyse_digit (c : Char) (cs : List Char) (p : Nat)
    (hd : is_ascii_digit c = true) :
    analyse_category_and_bump_chars ⟨c :: cs, p⟩ = .panicked "Not tested" := by
  rcases analyse_cases c cs p with
    ⟨hc, hA⟩ | ⟨hc, hA⟩ | ⟨hc, hA⟩ | ⟨t, b3x, hc, hcs, hsk, hA⟩ |
    ⟨t, msg, hc, hcs, hsk, hA⟩ | ⟨hc, hh, hA⟩ | ⟨t, hc, hcs, hA⟩ | ⟨hc, hh, hA⟩ |
    ⟨t, hc, hcs, hA⟩ | ⟨hc, hh, hA⟩ | ⟨t, hc, hcs, hA⟩ | ⟨hc, hh, hA⟩ |
    ⟨t, hc, hcs, hA⟩ | ⟨hc, hh, hA⟩ | ⟨hc, hA⟩ | ⟨hc, hA⟩ | ⟨hc, hA⟩ | ⟨hc, hA⟩ |
    ⟨hc, hA⟩ | ⟨hc, hA⟩ | ⟨hc, hA⟩ | ⟨hc, hA⟩ | ⟨hL2, hA⟩ | ⟨hw, hA⟩ |
    ⟨hL2, hw, hpn, hA⟩
  all_goals first
    | exact hA
    | (subst hc; exact absurd hd (by decide))
    | exact absurd (hL2.symm.trans (digit_not_letter hd)) (by decide)
    | exact absurd (hw.symm.trans (digit_not_ws hd)) (by decide)

/-- Rust `CSubScanner::scan_next_word`: remember the lexeme start, run one
classification step, build the word on `FoundCategory`, retry on
`Skipped`, return the end-of-input word on `ReachedEndOfInput`, and hit
the `todo!("diagnose errors!")` panic on `Err`.  The recursion terminates
because a `Skipped` step consumes at least one character. -/
def scan_next_word (b : CharBumper) : PanicOr (RustResult (Word × CharBumper) DiagBag) :=
  match h : analyse_category_and_bump_chars b with
  | .value (.Ok (.FoundCategory category), b') =>
    .value (.Ok ({ category := category,
                   lexeme := { start := b.current_peek_pos,
                               «end» := b'.current_peek_pos } }, b'))
  | .value (.Ok .Skipped, b') => scan_next_word b'
  | .value (.Ok .ReachedEndOfInput, b') => .value (.Ok (Word.end_of_input, b'))
  | .value (.Err _, _) => .panicked "diagnose errors!"
  | .panicked msg => .panicked msg
termination_by b.char_stream.length
decreasing_by
  obtain ⟨pre, hpre, hpos, hlen⟩ := analyse_skipped_inv _ _ h
  simp only [hpre, List.length_append]
  omega

theorem scan_unfold_found {b b' : CharBumper} {cat : Category}
    (h : analyse_category_and_bump_chars b = .value (.Ok (.FoundCategory cat), b')) :
    scan_next_word b =
      .value (.Ok ({ category := cat,
                     lexeme := { start := b.current_peek_pos,
                                 «end» := b'.current_peek_pos } }, b')) := by
  rw [scan_next_word.eq_def]
  split <;> rename_i heq <;> rw [h] at heq <;> simp_all

theorem scan_unfold_skipped {b b' : CharBumper}
    (h : analyse_category_and_bump_chars b = .value (.Ok .Skipped, b')) :
    scan_next_word b = scan_next_word b' := by
  conv_lhs => rw [scan_next_word.eq_def]
  split <;> rename_i heq <;> rw [h] at heq <;> simp_all

theorem scan_unfold_eoi {b b' : CharBumper}
    (h : analyse_category_and_bump_chars b = .value (.Ok .ReachedEndOfInput, b')) :
    scan_next_word b = .value (.Ok (Word.end_of_input, b')) := by
  rw [scan_next_word.eq_def]
  split <;> rename_i heq <;> rw [h] at heq <;> simp_all

theorem scan_unfold_panicked {b : CharBumper} {msg : String}
    (h : analyse_category_and_bump_chars b = .panicked msg) :
    scan_next_word b = .panicked msg := by
  rw [scan_next_word.eq_def]
  split <;> rename_i heq <;> rw [h] at heq <;> simp_all

theorem scan_unfold_err {b b2 : CharBumper} {d : Diag}
    (h : analyse_category_and_bump_chars b = .value (.Err d, b2)) :
    scan_next_word b = .panicked "diagnose errors!" := by
  rw [scan_next_word.eq_def]
  split <;> rename_i heq <;> rw [h] at heq <;> simp_all

/-! The position model: `SourceFile` and its lookups (src/source_map.rs).
`SourceFile::new` iterates over the bytes of the text, so the model keeps
the text as its list of bytes; the newline byte is 10. -/

/-- The loop of `SourceFile::new`: the byte position immediately after
every newline byte, `i` being the index of the byte under scrutiny. -/
def start_pos_of_lines_aux : List Nat → Nat → List Nat
  | [], _ => []
  | byte :: rest, i =>
    if byte = 10 then (i + 1) :: start_pos_of_lines_aux rest (i + 1)
    else start_pos_of_lines_aux rest (i + 1)

/-- Rust `SourceFile`: the text (as bytes) and the precomputed line-start
table. -/
structure SourceFile where
  src : List Nat
  start_pos_of_lines : List Nat
  deriving DecidableEq

/-- Rust `SourceFile::new`: position 0, then the position after every
newline, then the end-of-text sentinel. -/
def SourceFile.new (source_content : List Nat) : SourceFile :=
  { src := source_content,
    start_pos_of_lines :=
      0 :: (start_pos_of_lines_aux source_content 0 ++ [source_content.length]) }

/-- Rust `SourceFile::span_to_snippet`: the bytes covered by a span. -/
def SourceFile.span_to_snippet (sf : SourceFile) (span : Span) : List Nat :=
  (sf.src.drop span.start).take (span.«end» - span.start)

/-- The loop of `SourceFile::lookup_line_index` over the enumerated table:
the first recorded line start strictly greater than `pos` stops the scan
and yields its predecessor index.  (At index 0 the Rust `i - 1` could not
underflow because the first recorded start is 0; `Nat` subtraction agrees
on every reachable case.) -/
def lookup_line_index_aux : List Nat → Nat → Nat → Option Nat
  | [], _, _ => none
  | line_pos :: rest, i, pos =>
    if pos < line_pos then some (i - 1) else lookup_line_index_aux rest (i + 1) pos

/-- Rust `SourceFile::lookup_line_index`. -/
def SourceFile.lookup_line_index (sf : SourceFile) (pos : Nat) : Option Nat :=
  lookup_line_index_aux sf.start_pos_of_lines 0 pos

/-- Rust `SourceFile::lookup_source_location`: 1-based line, column =
`pos` minus the line's start.  (The Rust code indexes the table, which is
always in bounds for the produced line index; the model reads the same
entry with a default.) -/
def SourceFile.lookup_source_location (sf : SourceFile) (pos : Nat) : Option Loc :=
  (sf.lookup_line_index pos).map (fun line_index =>
    { line := line_index + 1,
      col := pos - sf.start_pos_of_lines.getD line_index 0 })

/-- The specification's characterisation of `lookup_line_index`: the index
of the first recorded line start strictly greater than `pos`. -/
def first_line_start_greater_index (lines : List Nat) (pos : Nat) : Option Nat :=
  lines.findIdx? (fun line_pos => decide (pos < line_pos))

/-- The character of the original stream that begins at byte offset `off`,
when the stream's first character begins at byte offset `base`. -/
def char_at_pos : List Char → Nat → Nat → Option Char
  | [], _, _ => none
  | c :: cs, base, off =>
    if base = off then some c else char_at_pos cs (base + utf8Len c) off

/-- Whether a character list contains the two-character comment
terminator: a `'*'` immediately followed by `'/'`. -/
def contains_comment_close : List Char → Bool
  | [] => false
  | c :: cs =>
    if c = '*' ∧ cs.head? = some '/' then true else contains_comment_close cs

theorem skip_block_comment_aux_panics :
    ∀ (l : List Char) (p : Nat), contains_comment_close l = false →
      skip_block_comment_aux l p = .panicked "diagnose missing end of block-comment!" := by
  intro l
  induction l with
  | nil => intro p _; rfl
  | cons c cs ih =>
    intro p hcc
    simp only [contains_comment_close] at hcc
    simp only [skip_block_comment_aux]
    split_ifs at hcc ⊢ with hcond
    exact ih _ hcc

theorem char_at_pos_append :
    ∀ (pre l : List Char) (base off : Nat), base + utf8LenList pre ≤ off →
      char_at_pos (pre ++ l) base off = char_at_pos l (base + utf8LenList pre) off := by
  intro pre
  induction pre with
  | nil => intro l base off _; simp
  | cons c pre ih =>
    intro l base off hle
    rw [utf8LenList_cons] at hle
    have hc := utf8Len_pos c
    rw [List.cons_append]
    simp only [char_at_pos]
    rw [if_neg (by omega)]
    rw [ih l (base + utf8Len c) off (by omega), utf8LenList_cons]
    congr 1
    omega

theorem char_at_pos_self (c : Char) (cs : List Char) (q : Nat) :
    char_at_pos (c :: cs) q q = some c := by
  simp [char_at_pos]

theorem lookup_line_index_aux_eq_findIdx :
    ∀ (lines : List Nat) (i pos : Nat),
      lookup_line_index_aux lines i pos =
        (List.findIdx? (fun line_pos => decide (pos < line_pos)) lines i).map (fun j => j - 1) := by
  intro lines
  induction lines with
  | nil => intro i pos; rfl
  | cons l ls ih =>
    intro i pos
    rw [lookup_line_index_aux, List.findIdx?_cons]
    by_cases hcond : pos < l
    · rw [if_pos hcond, if_pos (by simp [hcond])]
      rfl
    · rw [if_neg hcond, if_neg (by simp [hcond])]
      exact ih _ _

theorem start_pos_of_lines_aux_le :
    ∀ (src : List Nat) (i : Nat), ∀ e ∈ start_pos_of_lines_aux src i, e ≤ i + src.length := by
  intro src
  induction src with
  | nil => intro i e he; simp [start_pos_of_lines_aux] at he
  | cons byte rest ih =>
    intro i e he
    simp only [start_pos_of_lines_aux] at he
    split_ifs at he with hb
    · rcases List.mem_cons.mp he with rfl | he2
      · simp only [List.length_cons]
        omega
      · have := ih (i + 1) e he2
        simp only [List.length_cons]
        omega
    · have := ih (i + 1) e he
      simp only [List.length_cons]
      omega

theorem bump_ident_aux_eq :
    ∀ (l : List Char) (p : Nat),
      bump_ident_aux l p =
        ⟨l.dropWhile is_ident_char, p + utf8LenList (l.takeWhile is_ident_char)⟩ := by
  intro l
  induction l with
  | nil => intro p; simp [bump_ident_aux, utf8LenList]
  | cons c cs ih =>
    intro p
    cases hc : is_ident_char c
    · simp [bump_ident_aux, hc, utf8LenList]
    · simp only [bump_ident_aux, hc, if_true, List.takeWhile_cons, List.dropWhile_cons,
        utf8LenList_cons, ih, ite_true]
      rw [CharBumper.mk.injEq]
      exact ⟨rfl, by omega⟩

/-- The span-start invariant, by induction on the stream length: a word
that is not the end-of-input sentinel starts at or after the calling
offset, ends exactly at the final offset, and its start offset carries a
non-whitespace character of the original stream. -/
theorem scan_word_start_aux :
    ∀ (n : Nat) (b : CharBumper), b.char_stream.length ≤ n →
      ∀ (w : Word) (b' : CharBumper),
        scan_next_word b = .value (.Ok (w, b')) → w.category ≠ .Eof →
        b.current_peek_pos ≤ w.lexeme.start ∧ w.lexeme.«end» = b'.current_peek_pos ∧
        ∃ c, char_at_pos b.char_stream b.current_peek_pos w.lexeme.start = some c ∧
          is_whitespace c = false := by
  intro n
  induction n with
  | zero =>
    intro b hb w b' h hEof
    obtain ⟨l, p⟩ := b
    have hl : l = [] := List.length_eq_zero.mp (Nat.le_zero.mp hb)
    subst hl
    rw [scan_unfold_eoi (analyse_nil p)] at h
    simp at h
    obtain ⟨hw, -⟩ := h
    rw [← hw] at hEof
    exact absurd rfl hEof
  | succ n ih =>
    intro b hb w b' h hEof
    rcases hA : analyse_category_and_bump_chars b with msg | ⟨res, b2⟩
    · rw [scan_unfold_panicked hA] at h
      exact absurd h (by simp)
    · rcases res with s | d
      · rcases s with _ | cat | _
        · -- Skipped: recurse and transport the conclusions over the prefix
          rw [scan_unfold_skipped hA] at h
          obtain ⟨pre, hpre, hpos, hlen⟩ := analyse_skipped_inv _ _ hA
          have hlen2 : b2.char_stream.length ≤ n := by
            rw [hpre, List.length_append] at hb
            omega
          obtain ⟨h1, h2, c, hc, hcws⟩ := ih b2 hlen2 w b' h hEof
          refine ⟨by omega, h2, c, ?_, hcws⟩
          rw [hpre, char_at_pos_append pre _ _ _ (by omega)]
          rw [← hpos]
          exact hc
        · -- FoundCategory
          rw [scan_unfold_found hA] at h
          simp at h
          obtain ⟨hw, hb2⟩ := h
          subst hb2
          obtain ⟨c, cs, hcs, hws⟩ := analyse_found_not_ws _ _ _ hA
          subst hw
          refine ⟨le_refl _, rfl, c, ?_, hws⟩
          rw [hcs]
          exact char_at_pos_self c cs b.current_peek_pos
        · -- ReachedEndOfInput
          rw [scan_unfold_eoi hA] at h
          simp at h
          obtain ⟨hw, -⟩ := h
          rw [← hw] at hEof
          exact absurd rfl hEof
      · rw [scan_unfold_err hA] at h
        exact absurd h (by simp)

/-- Every call of the scanner ends in a panic or in an `Ok` value, by
induction on the stream length. -/
theorem scan_ok_or_panic_aux :
    ∀ (n : Nat) (b : CharBumper), b.char_stream.length ≤ n →
      (∃ msg, scan_next_word b = .panicked msg) ∨
      (∃ w b', scan_next_word b = .value (.Ok (w, b'))) := by
  intro n
  induction n with
  | zero =>
    intro b hb
    obtain ⟨l, p⟩ := b
    have hl : l = [] := List.length_eq_zero.mp (Nat.le_zero.mp hb)
    subst hl
    exact Or.inr ⟨_, _, scan_unfold_eoi (analyse_nil p)⟩
  | succ n ih =>
    intro b hb
    rcases analyse_shape b with ⟨msg, hA⟩ | ⟨s, b2, hA⟩
    · exact Or.inl ⟨msg, scan_unfold_panicked hA⟩
    · rcases s with _ | cat | _
      · rw [scan_unfold_skipped hA]
        obtain ⟨pre, hpre, hpos, hlen⟩ := analyse_skipped_inv _ _ hA
        refine ih b2 ?_
        rw [hpre, List.length_append] at hb
        omega
      · exact Or.inr ⟨_, _, scan_unfold_found hA⟩
      · exact Or.inr ⟨_, _, scan_unfold_eoi hA⟩

/-! Claims. -/

/-- C1, counterexample: the claim says `scan_next_word` never panics on
malformed input, but scanning the unknown character `?` reaches the
source's `todo!("Not tested")` panic instead of returning an error
value. -/
theorem claim_C1_counterexample :
    scan_next_word ⟨['?'], 0⟩ = .panicked "Not tested" :=
  scan_unfold_panicked rfl

/-- C1, amended: `scan_next_word` panics on malformed input instead of
returning the lexical error as a value: an unknown character such as `?`,
a digit, and a standalone `!` all hit `todo!("Not tested")`, and an
unterminated block comment hits
`todo!("diagnose missing end of block-comment!")`. -/
theorem claim_C1_amended (p : Nat) (rest : List Char) :
    scan_next_word ⟨'?' :: rest, p⟩ = .panicked "Not tested" ∧
    scan_next_word ⟨'7' :: rest, p⟩ = .panicked "Not tested" ∧
    scan_next_word ⟨['!'], p⟩ = .panicked "Not tested" ∧
    scan_next_word ⟨['/', '*'], p⟩ = .panicked "diagnose missing end of block-comment!" :=
  ⟨scan_unfold_panicked rfl, scan_unfold_panicked rfl, scan_unfold_panicked rfl,
   scan_unfold_panicked rfl⟩

/-- C2, counterexample: the claim says the keyword `else` scans as
`Kw(Else)`, but the scanner performs no keyword lookup and returns a plain
`Ident` word. -/
theorem claim_C2_counterexample :
    scan_next_word ⟨['e', 'l', 's', 'e'], 0⟩ =
      .value (.Ok ({ category := .Ident, lexeme := { start := 0, «end» := 4 } }, ⟨[], 4⟩)) ∧
    Category.Ident ≠ Category.Kw .Else :=
  ⟨@scan_unfold_found ⟨['e', 'l', 's', 'e'], 0⟩ ⟨[], 4⟩ .Ident rfl, by decide⟩

/-- C2, amended: on a first letter the scanner consumes the maximal run of
letters and digits and always yields category `Ident`: no keyword table is
consulted, so `else, if, int, return, void, while` also scan as `Ident`. -/
theorem claim_C2_amended (p : Nat) (c : Char) (cs : List Char)
    (hL : is_ascii_letter c = true) :
    scan_next_word ⟨c :: cs, p⟩ =
      .value (.Ok ({ category := .Ident,
                     lexeme := { start := p,
                                 «end» := p + utf8Len c +
                                   utf8LenList (cs.takeWhile is_ident_char) } },
                   ⟨cs.dropWhile is_ident_char,
                    p + utf8Len c + utf8LenList (cs.takeWhile is_ident_char)⟩)) := by
  have hA := analyse_letter c cs p hL
  rw [bump_ident_aux_eq] at hA
  exact scan_unfold_found hA

/-- C2, witness: the keyword `else` itself scans as an `Ident` word
spanning the whole four-byte run. -/
theorem claim_C2_amended_witness :
    scan_next_word ⟨['e', 'l', 's', 'e'], 5⟩ =
      .value (.Ok ({ category := .Ident, lexeme := { start := 5, «end» := 9 } }, ⟨[], 9⟩)) := by
  rw [claim_C2_amended 5 'e' ['l', 's', 'e'] (by decide)]
  decide

/-- C3, counterexample: the claim says a digit starts a `Number` word, but
the scanner's match has no digit arm at all: scanning `1` falls into the
`todo!("Not tested")` panic. -/
theorem claim_C3_counterexample :
    scan_next_word ⟨['1'], 0⟩ = .panicked "Not tested" :=
  scan_unfold_panicked rfl

/-- C3, amended: on any input whose first character is a digit, also
after a skipped leading space, `scan_next_word` panics with
`todo!("Not tested")`: number scanning is unimplemented, no digit run is
consumed and no `Number` word exists. -/
theorem claim_C3_amended (p : Nat) (c : Char) (cs : List Char)
    (hd : is_ascii_digit c = true) :
    scan_next_word ⟨c :: cs, p⟩ = .panicked "Not tested" ∧
    scan_next_word ⟨' ' :: c :: cs, p⟩ = .panicked "Not tested" :=
  ⟨scan_unfold_panicked (analyse_digit c cs p hd),
   (@scan_unfold_skipped ⟨' ' :: c :: cs, p⟩ ⟨c :: cs, p + utf8Len ' '⟩ rfl).trans
     (scan_unfold_panicked (analyse_digit c cs (p + utf8Len ' ') hd))⟩

/-- C3, witness: scanning `23` panics at the very first digit, with and
without a leading space. -/
theorem claim_C3_amended_witness :
    scan_next_word ⟨['2', '3'], 7⟩ = .panicked "Not tested" ∧
    scan_next_word ⟨[' ', '2', '3'], 7⟩ = .panicked "Not tested" :=
  claim_C3_amended 7 '2' ['3'] (by decide)

/-- C4, counterexample: the claim says an unterminated block comment
yields the diagnostic `MissingCommentTerminator` as a returned value, but
the `Diag` type declares no such variant and `skip_block_comment` panics
with `todo!("diagnose missing end of block-comment!")` at end of input. -/
theorem claim_C4_counterexample :
    scan_next_word ⟨['/', '*', 'x'], 0⟩ =
      .panicked "diagnose missing end of block-comment!" :=
  scan_unfold_panicked rfl

/-- C4, amended: a `/*` whose remainder contains no `*/` produces no word
from the comment and panics with
`todo!("diagnose missing end of block-comment!")` when end of input is
reached inside the comment; no diagnostic value is returned (the `Diag`
type has only an `UnknownCharacter` variant). -/
theorem claim_C4_amended (p : Nat) (rest : List Char)
    (h : contains_comment_close rest = false) :
    scan_next_word ⟨'/' :: '*' :: rest, p⟩ =
      .panicked "diagnose missing end of block-comment!" := by
  apply scan_unfold_panicked
  rw [analyse_slash, bump_if_cons_eq '*' rest (p + utf8Len '/')]
  have hsk2 : skip_block_comment ⟨rest, p + utf8Len '/' + utf8Len '*'⟩ =
      .panicked "diagnose missing end of block-comment!" :=
    skip_block_comment_aux_panics rest (p + utf8Len '/' + utf8Len '*') h
  simp only [hsk2]

/-- C4, witness: `/*a` panics when the comment reaches end of input. -/
theorem claim_C4_amended_witness :
    scan_next_word ⟨['/', '*', 'a'], 3⟩ =
      .panicked "diagnose missing end of block-comment!" :=
  claim_C4_amended 3 ['a'] (by decide)

/-- C5, counterexample: the claim says `{` yields the open-curly category,
but the source maps `{` to `OpenBracket` (and `[` to `OpenCurly`). -/
theorem claim_C5_counterexample :
    scan_next_word ⟨['{'], 0⟩ =
      .value (.Ok ({ category := .OpenBracket, lexeme := { start := 0, «end» := 1 } },
        ⟨[], 1⟩)) ∧
    Category.OpenBracket ≠ Category.OpenCurly :=
  ⟨@scan_unfold_found ⟨['{'], 0⟩ ⟨[], 1⟩ .OpenBracket rfl, by decide⟩

/-- C5, amended: each of the eleven one-character punctuation inputs
yields its single-character category with a span of exactly one consumed
character, with the bracket names as the source assigns them: `[` yields
`OpenCurly`, `]` yields `CloseCurly`, `{` yields `OpenBracket` and `}`
yields `CloseBracket`. -/
theorem claim_C5_amended (p : Nat) (rest : List Char) :
    scan_next_word ⟨'+' :: rest, p⟩ =
      .value (.Ok ({ category := .Plus, lexeme := { start := p, «end» := p + 1 } },
        ⟨rest, p + 1⟩)) ∧
    scan_next_word ⟨'-' :: rest, p⟩ =
      .value (.Ok ({ category := .Minus, lexeme := { start := p, «end» := p + 1 } },
        ⟨rest, p + 1⟩)) ∧
    scan_next_word ⟨'*' :: rest, p⟩ =
      .value (.Ok ({ category := .Star, lexeme := { start := p, «end» := p + 1 } },
        ⟨rest, p + 1⟩)) ∧
    scan_next_word ⟨';' :: rest, p⟩ =
      .value (.Ok ({ category := .Semicolon, lexeme := { start := p, «end» := p + 1 } },
        ⟨rest, p + 1⟩)) ∧
    scan_next_word ⟨',' :: rest, p⟩ =
      .value (.Ok ({ category := .Comma, lexeme := { start := p, «end» := p + 1 } },
        ⟨rest, p + 1⟩)) ∧
    scan_next_word ⟨'(' :: rest, p⟩ =
      .value (.Ok ({ category := .OpenParen, lexeme := { start := p, «end» := p + 1 } },
        ⟨rest, p + 1⟩)) ∧
    scan_next_word ⟨')' :: rest, p⟩ =
      .value (.Ok ({ category := .CloseParen, lexeme := { start := p, «end» := p + 1 } },
        ⟨rest, p + 1⟩)) ∧
    scan_next_word ⟨'[' :: rest, p⟩ =
      .value (.Ok ({ category := .OpenCurly, lexeme := { start := p, «end» := p + 1 } },
        ⟨rest, p + 1⟩)) ∧
    scan_next_word ⟨']' :: rest, p⟩ =
      .value (.Ok ({ category := .CloseCurly, lexeme := { start := p, «end» := p + 1 } },
        ⟨rest, p + 1⟩)) ∧
    scan_next_word ⟨'{' :: rest, p⟩ =
      .value (.Ok ({ category := .OpenBracket, lexeme := { start := p, «end» := p + 1 } },
        ⟨rest, p + 1⟩)) ∧
    scan_next_word ⟨'}' :: rest, p⟩ =
      .value (.Ok ({ category := .CloseBracket, lexeme := { start := p, «end» := p + 1 } },
        ⟨rest, p + 1⟩)) :=
  ⟨@scan_unfold_found ⟨'+' :: rest, p⟩ ⟨rest, p + 1⟩ .Plus rfl,
   @scan_unfold_found ⟨'-' :: rest, p⟩ ⟨rest, p + 1⟩ .Minus rfl,
   @scan_unfold_found ⟨'*' :: rest, p⟩ ⟨rest, p + 1⟩ .Star rfl,
   @scan_unfold_found ⟨';' :: rest, p⟩ ⟨rest, p + 1⟩ .Semicolon rfl,
   @scan_unfold_found ⟨',' :: rest, p⟩ ⟨rest, p + 1⟩ .Comma rfl,
   @scan_unfold_found ⟨'(' :: rest, p⟩ ⟨rest, p + 1⟩ .OpenParen rfl,
   @scan_unfold_found ⟨')' :: rest, p⟩ ⟨rest, p + 1⟩ .CloseParen rfl,
   @scan_unfold_found ⟨'[' :: rest, p⟩ ⟨rest, p + 1⟩ .OpenCurly rfl,
   @scan_unfold_found ⟨']' :: rest, p⟩ ⟨rest, p + 1⟩ .CloseCurly rfl,
   @scan_unfold_found ⟨'{' :: rest, p⟩ ⟨rest, p + 1⟩ .OpenBracket rfl,
   @scan_unfold_found ⟨'}' :: rest, p⟩ ⟨rest, p + 1⟩ .CloseBracket rfl⟩

/-- C6: every input starting with `<=`, `>=`, `==` or `!=` scans as one
two-character word with the corresponding category and a span of length
two; the two characters are consumed by the same call, so no two
one-character words are produced. -/
theorem claim_C6 (p : Nat) (rest : List Char) :
    scan_next_word ⟨'<' :: '=' :: rest, p⟩ =
      .value (.Ok ({ category := .LessEqual, lexeme := { start := p, «end» := p + 2 } },
        ⟨rest, p + 2⟩)) ∧
    scan_next_word ⟨'>' :: '=' :: rest, p⟩ =
      .value (.Ok ({ category := .GreaterEqual, lexeme := { start := p, «end» := p + 2 } },
        ⟨rest, p + 2⟩)) ∧
    scan_next_word ⟨'=' :: '=' :: rest, p⟩ =
      .value (.Ok ({ category := .EqualEqual, lexeme := { start := p, «end» := p + 2 } },
        ⟨rest, p + 2⟩)) ∧
    scan_next_word ⟨'!' :: '=' :: rest, p⟩ =
      .value (.Ok ({ category := .ExclamaEqual, lexeme := { start := p, «end» := p + 2 } },
        ⟨rest, p + 2⟩)) :=
  ⟨@scan_unfold_found ⟨'<' :: '=' :: rest, p⟩ ⟨rest, p + 2⟩ .LessEqual rfl,
   @scan_unfold_found ⟨'>' :: '=' :: rest, p⟩ ⟨rest, p + 2⟩ .GreaterEqual rfl,
   @scan_unfold_found ⟨'=' :: '=' :: rest, p⟩ ⟨rest, p + 2⟩ .EqualEqual rfl,
   @scan_unfold_found ⟨'!' :: '=' :: rest, p⟩ ⟨rest, p + 2⟩ .ExclamaEqual rfl⟩

/-- C7: block comments do not nest: scanning `/*+/*-*/=*/` yields exactly
three words, `Equal` then `Star` then `Slash`, and then end of input; the
first `*/` closes the comment despite the inner `/*`. -/
theorem claim_C7 :
    scan_next_word ⟨['/', '*', '+', '/', '*', '-', '*', '/', '=', '*', '/'], 0⟩ =
      .value (.Ok ({ category := .Equal, lexeme := { start := 8, «end» := 9 } },
        ⟨['*', '/'], 9⟩)) ∧
    scan_next_word ⟨['*', '/'], 9⟩ =
      .value (.Ok ({ category := .Star, lexeme := { start := 9, «end» := 10 } },
        ⟨['/'], 10⟩)) ∧
    scan_next_word ⟨['/'], 10⟩ =
      .value (.Ok ({ category := .Slash, lexeme := { start := 10, «end» := 11 } },
        ⟨[], 11⟩)) ∧
    scan_next_word ⟨([] : List Char), 11⟩ = .value (.Ok (Word.end_of_input, ⟨[], 11⟩)) := by
  refine ⟨?_, ?_, ?_, ?_⟩
  · rw [scan_unfold_skipped
      (rfl : analyse_category_and_bump_chars
        ⟨['/', '*', '+', '/', '*', '-', '*', '/', '=', '*', '/'], 0⟩ =
          .value (.Ok .Skipped, ⟨['=', '*', '/'], 8⟩))]
    exact @scan_unfold_found ⟨['=', '*', '/'], 8⟩ ⟨['*', '/'], 9⟩ .Equal rfl
  · exact @scan_unfold_found ⟨['*', '/'], 9⟩ ⟨['/'], 10⟩ .Star rfl
  · exact @scan_unfold_found ⟨['/'], 10⟩ ⟨[], 11⟩ .Slash rfl
  · exact @scan_unfold_eoi ⟨([] : List Char), 11⟩ ⟨[], 11⟩ rfl

/-- C8: a word returned by `scan_next_word` that is not the end-of-input
sentinel starts at or after the calling offset, ends exactly at the
cursor's final offset, and the character at its span's start offset is not
whitespace: leading whitespace is never part of a span, and whitespace
between two words belongs to neither span. -/
theorem claim_C8 (b : CharBumper) (w : Word) (b' : CharBumper)
    (h : scan_next_word b = .value (.Ok (w, b'))) (hEof : w.category ≠ .Eof) :
    b.current_peek_pos ≤ w.lexeme.start ∧ w.lexeme.«end» = b'.current_peek_pos ∧
    ∃ c, char_at_pos b.char_stream b.current_peek_pos w.lexeme.start = some c ∧
      is_whitespace c = false :=
  scan_word_start_aux b.char_stream.length b (le_refl _) w b' h hEof

/-- C8, witness: scanning `" +"` skips the leading space and returns a
`Plus` word whose span starts at the non-whitespace `+` at offset 1. -/
theorem claim_C8_witness :
    (0 : Nat) ≤ 1 ∧ (2 : Nat) = 2 ∧
    char_at_pos [' ', '+'] 0 1 = some '+' ∧ is_whitespace '+' = false := by
  have hscan : scan_next_word ⟨[' ', '+'], 0⟩ =
      .value (.Ok ({ category := .Plus, lexeme := { start := 1, «end» := 2 } }, ⟨[], 2⟩)) := by
    rw [scan_unfold_skipped (rfl : analyse_category_and_bump_chars ⟨[' ', '+'], 0⟩ =
      .value (.Ok .Skipped, ⟨['+'], 1⟩))]
    exact @scan_unfold_found ⟨['+'], 1⟩ ⟨[], 2⟩ .Plus rfl
  obtain ⟨h1, h2, c, hc, hw⟩ := claim_C8 ⟨[' ', '+'], 0⟩
    { category := .Plus, lexeme := { start := 1, «end» := 2 } } ⟨[], 2⟩ hscan (by decide)
  have hd : char_at_pos [' ', '+'] 0 1 = some '+' := by decide
  have hcp : c = '+' := Option.some.inj (hd.symm.trans hc) |>.symm
  subst hcp
  exact ⟨h1, h2, hc, hw⟩

/-- C9: for a file built by `SourceFile.new`, `lookup_line_index pos` is
the predecessor of the index of the first recorded line start strictly
greater than `pos`; it is `none` exactly when `pos` is at or past the
text length, and `lookup_source_location` then pairs the 1-based line
number with the column `pos` minus that line's start, and is `none` under
the same condition. -/
theorem claim_C9 (text : List Nat) (pos : Nat) :
    (SourceFile.new text).lookup_line_index pos =
      (first_line_start_greater_index (SourceFile.new text).start_pos_of_lines pos).map
        (fun i => i - 1) ∧
    (text.length ≤ pos → (SourceFile.new text).lookup_line_index pos = none ∧
      (SourceFile.new text).lookup_source_location pos = none) ∧
    (pos < text.length → ∃ i, (SourceFile.new text).lookup_line_index pos = some i ∧
      (SourceFile.new text).lookup_source_location pos =
        some { line := i + 1,
               col := pos - (SourceFile.new text).start_pos_of_lines.getD i 0 }) := by
  have heq : (SourceFile.new text).lookup_line_index pos =
      (first_line_start_greater_index (SourceFile.new text).start_pos_of_lines pos).map
        (fun i => i - 1) :=
    lookup_line_index_aux_eq_findIdx _ 0 pos
  refine ⟨heq, ?_, ?_⟩
  · intro hge
    have hnone : first_line_start_greater_index
        (SourceFile.new text).start_pos_of_lines pos = none := by
      rw [first_line_start_greater_index, List.findIdx?_eq_none_iff]
      intro x hx
      simp only [SourceFile.new] at hx
      rcases List.mem_cons.mp hx with rfl | hx2
      · simp
      · rcases List.mem_append.mp hx2 with hx3 | hx4
        · have := start_pos_of_lines_aux_le text 0 x hx3
          simp only [decide_eq_false_iff_not]
          omega
        · simp only [List.mem_singleton] at hx4
          subst hx4
          simp only [decide_eq_false_iff_not]
          omega
    refine ⟨?_, ?_⟩
    · rw [heq, hnone]
      rfl
    · rw [SourceFile.lookup_source_location, heq, hnone]
      rfl
  · intro hlt
    have hany : (SourceFile.new text).start_pos_of_lines.any
        (fun line_pos => decide (pos < line_pos)) = true := by
      apply List.any_eq_true.mpr
      refine ⟨text.length, ?_, by simp [hlt]⟩
      simp [SourceFile.new]
    have hiso : (first_line_start_greater_index
        (SourceFile.new text).start_pos_of_lines pos).isSome = true := by
      rw [first_line_start_greater_index, List.findIdx?_isSome, hany]
    obtain ⟨j, hj⟩ := Option.isSome_iff_exists.mp hiso
    refine ⟨j - 1, ?_, ?_⟩
    · rw [heq, hj]
      rfl
    · rw [SourceFile.lookup_source_location, heq, hj]
      rfl

/-- C9, witness: in the three-byte text `a\nb` the offset 2 sits on line
2 at column 0, and an offset past the end has no location. -/
theorem claim_C9_witness :
    (SourceFile.new [97, 10, 98]).lookup_line_index 2 = some 1 ∧
    (SourceFile.new [97, 10, 98]).lookup_source_location 2 =
      some { line := 2, col := 0 } ∧
    (SourceFile.new [97, 10, 98]).lookup_line_index 5 = none ∧
    (SourceFile.new [97, 10, 98]).lookup_source_location 5 = none := by
  obtain ⟨i, hi, hloc⟩ := (claim_C9 [97, 10, 98] 2).2.2 (by decide)
  obtain ⟨hn1, hn2⟩ := (claim_C9 [97, 10, 98] 5).2.1 (by decide)
  have hd : (SourceFile.new [97, 10, 98]).lookup_line_index 2 = some 1 := by decide
  have hi1 : i = 1 := (Option.some.inj (hd.symm.trans hi)).symm
  subst hi1
  exact ⟨hi, hloc, hn1, hn2⟩

/-- C10: `scan_next_word` never returns the declared `Err(DiagBag)`
variant: every call ends in a panic or in an `Ok` value, because the
classification step itself only ever panics or returns `Ok`. -/
theorem claim_C10 (b : CharBumper) :
    (∀ bag : DiagBag, scan_next_word b ≠ .value (.Err bag)) ∧
    ((∃ msg, scan_next_word b = .panicked msg) ∨
      (∃ w b', scan_next_word b = .value (.Ok (w, b')))) ∧
    ((∃ msg, analyse_category_and_bump_chars b = .panicked msg) ∨
      (∃ s b2, analyse_category_and_bump_chars b = .value (.Ok s, b2))) := by
  have hs := scan_ok_or_panic_aux b.char_stream.length b (le_refl _)
  refine ⟨?_, hs, analyse_shape b⟩
  intro bag hbad
  rcases hs with ⟨msg, hm⟩ | ⟨w, b', hok⟩
  · rw [hm] at hbad
    simp at hbad
  · rw [hok] at hbad
    simp at hbad

end CSub
